import Mathlib

/-!
Shallow embedding of `src/bot.py` (a Discord competitive-intelligence bot).

Modelling conventions:
* Python strings are Lean `String` values; Python slicing, `lower()`,
  `strip()`, `startswith` become the `py...` primitives below, defined
  over the underlying character sequence.
* Network I/O is passed in explicitly: an HTTP response is
  `Option (status × body)`, where `none` stands for a raised
  network/timeout/decode exception caught by the surrounding `except`.
* The regex pipeline `_simple_html_to_text` (lines 88-92) delegates to the
  Python `re` library; it is abstracted as the `stripHtml` field of the
  environment, since no claim depends on its internals.
* Wall-clock time in the polling loop advances by the fixed 1.0 second
  sleep per iteration, so elapsed seconds at iteration `n` is `n`.
-/

/-! Python string primitives, modelled over the character sequence of a
`String` (a Python `str` is a sequence of code points; slicing, `lower()`,
`strip()` and `startswith` act on that sequence). -/

/-- Python `s.lower()` (ASCII letters; all question/key text is ASCII). -/
def pyLower (s : String) : String := String.mk (s.data.map Char.toLower)

/-- Python `s.strip()`: remove leading and trailing whitespace. -/
def pyTrim (s : String) : String :=
  String.mk
    ((((s.data.dropWhile Char.isWhitespace).reverse).dropWhile
      Char.isWhitespace).reverse)

/-- Python `s.startswith(pre)`. -/
def pyStartsWith (s pre : String) : Bool := pre.data.isPrefixOf s.data

/-- Python slice `s[:n]`. -/
def pyTake (s : String) (n : Nat) : String := String.mk (s.data.take n)

/-- Python slice `s[n:]`. -/
def pyDrop (s : String) (n : Nat) : String := String.mk (s.data.drop n)

/-- Static competitor catalog `DEFAULT_COMPETITORS` (bot.py lines 41-51),
a Python dict modelled as an insertion-ordered association list. -/
def DEFAULT_COMPETITORS : List (String × List String) :=
  [("vmware", ["vmware.com", "broadcom.com"]),
   ("nutanix", ["nutanix.com"]),
   ("aws", ["aws.amazon.com", "aws.amazon.com/eks", "aws.amazon.com/ec2"]),
   ("azure", ["azure.microsoft.com", "learn.microsoft.com/azure/openshift"]),
   ("google", ["cloud.google.com", "cloud.google.com/kubernetes-engine"]),
   ("oracle", ["oracle.com/cloud"]),
   ("suse", ["suse.com", "rancher.com"]),
   ("redhat", ["redhat.com/openshift/virtualization", "redhat.com/openshift"])]

/-- Keys of the catalog in insertion order (`DEFAULT_COMPETITORS.keys()`). -/
def competitorKeys : List String := DEFAULT_COMPETITORS.map Prod.fst

/-- Python `DEFAULT_COMPETITORS.get(c, [])` (bot.py line 125). -/
def lookupCatalog (c : String) : List String :=
  match DEFAULT_COMPETITORS.find? (fun p => p.1 == c) with
  | some p => p.2
  | none => []

/-- Bool test for `pat` occurring as a contiguous infix of `hay`,
modelling the Python substring operator `in` on character lists. -/
def listInfix (pat : List Char) : List Char → Bool
  | [] => pat.isEmpty
  | c :: rest => pat.isPrefixOf (c :: rest) || listInfix pat rest

/-- Python `pat in s` for strings. -/
def strIn (pat s : String) : Bool := listInfix pat.data s.data

/-- The competitor-inference function `infer_competitors` (bot.py lines 53-56):
lower-case the question, keep catalog keys occurring as substrings, and
fall back to all keys when no key matches (`hits or list(keys)`). -/
def infer_competitors (question : String) : List String :=
  let q := pyLower question
  let hits := competitorKeys.filter (fun k => strIn k q)
  if hits.isEmpty then competitorKeys else hits

/-- A research document dict `{title, url, source, text}`; news hits and
freshly built homepage entries carry `text := ""` until a body is fetched. -/
structure Doc where
  title : String
  url : String
  source : String
  text : String := ""
deriving DecidableEq

/-- One item of the Bing response `data["value"]` list: the fields read via
`it.get(...)` are `Option`s (a missing key yields the default), and each
provider dict is represented by its `"name"` field. -/
structure BingItem where
  name : Option String := none
  url : Option String := none
  provider : Option (List (Option String)) := none
deriving DecidableEq

/-- Python `(it.get("provider") or [{}])[0].get("name", "")` (bot.py line 81):
a missing or empty provider list is falsy and falls back to `[{}]`. -/
def providerName : Option (List (Option String)) → String
  | none => ""
  | some [] => ""
  | some (x :: _) => x.getD ""

/-- Model of `bing_news_search` (bot.py lines 59-86). `resp` is the HTTP exchange for
this query: `none` models a raised network/timeout/JSON error (swallowed by
the `except` clause); otherwise a status code and the optional `"value"`
list of the JSON body (`data.get("value", [])`). With no API key, or any
non-200 status, or any error, the result is `[]`. -/
def bing_news_search (bingKey : String)
    (resp : Option (Nat × Option (List BingItem))) : List Doc :=
  if bingKey = "" then []
  else
    match resp with
    | none => []
    | some (status, body) =>
      if status ≠ 200 then []
      else (body.getD []).map (fun it =>
        { title := it.name.getD "", url := it.url.getD "",
          source := providerName it.provider, text := "" })

/-- Model of `fetch_url_text` (bot.py lines 94-102). `pageNet url` is the HTTP
exchange for `url` (`none` = raised exception, caught and mapped to `""`);
`strip` stands for `_simple_html_to_text`. A non-200 status yields `""`;
otherwise the stripped body is truncated to 20000 characters. -/
def fetch_url_text (pageNet : String → Option (Nat × String))
    (strip : String → String) (url : String) : String :=
  match pageNet url with
  | none => ""
  | some (status, html) =>
    if status ≠ 200 then "" else pyTake (strip html) 20000

/-- The dedup loop of `gather_research` (bot.py lines 129-136): walk the
combined list keeping an entry only when its url is non-empty (`if u`) and
not yet seen, first occurrence wins, order preserved. The Python `set` of
seen urls is modelled as a list. -/
def dedupByUrlGo (seen : List String) : List Doc → List Doc
  | [] => []
  | it :: rest =>
    if it.url ≠ "" ∧ it.url ∉ seen then
      it :: dedupByUrlGo (it.url :: seen) rest
    else dedupByUrlGo seen rest

/-- Dedup starting from an empty seen-set, as `gather_research` does. -/
def dedupByUrl (l : List Doc) : List Doc := dedupByUrlGo [] l

/-- One message content part, with its `type` tag and `text.value`. -/
structure ContentPart where
  ctype : String
  textValue : String
deriving DecidableEq

/-- One entry of `messages.list(...).data`, with its `role` and content. -/
structure Msg where
  role : String
  content : List ContentPart
deriving DecidableEq

/-- The external world of one bot interaction: the Bing key and per-query
news responses, the per-url page responses, the HTML stripper, the remote
thread-creation ids (indexed by how many creations happened so far), and
the run status / message list observed while polling one run. -/
structure Env where
  bingKey : String
  bingNet : String → Option (Nat × Option (List BingItem))
  pageNet : String → Option (Nat × String)
  stripHtml : String → String
  newThreadId : Nat → String
  runStatusAt : Nat → String
  runMsgs : List Msg

/-- The homepage documents appended for each (competitor, domain) pair
(bot.py lines 124-127). -/
def officialSiteDocs (comp : List String) : List Doc :=
  (comp.map (fun c =>
    (lookupCatalog c).map (fun domain =>
      { title := c ++ " site: " ++ domain,
        url := if pyStartsWith domain "http" then domain
               else "https://" ++ domain,
        source := domain, text := "" : Doc }))).flatten

/-- The fetch stage of `gather_research` (bot.py lines 139-145): take the
first 15 deduplicated entries, fetch each body, keep an entry (with its
`text` set to the body) only when the body is non-empty. -/
def fetchStage (env : Env) (deduped : List Doc) : List Doc :=
  (deduped.take 15).filterMap (fun it =>
    let body := fetch_url_text env.pageNet env.stripHtml it.url
    if body ≠ "" then some { it with text := body } else none)

/-- Model of `gather_research` (bot.py lines 104-145): build news queries for the
inferred competitors (plus one embedding the raw question when non-empty),
collect Bing results per query in order, append the homepage documents,
dedup by url, then fetch the first 15. -/
def gather_research (env : Env) (question : String) : List Doc :=
  let comp := infer_competitors question
  let queries := comp.map
    (fun c => c ++ " virtualization Kubernetes OpenShift competitor news")
  let queries := if question ≠ "" then
      queries ++ [pyTrim ("Red Hat OpenShift Virtualization " ++ question)]
    else queries
  let news :=
    (queries.map (fun q => bing_news_search env.bingKey (env.bingNet q))).flatten
  fetchStage env (dedupByUrl (news ++ officialSiteDocs comp))

/-- Exit condition of the polling loop in `run_assistant_blocking`. -/
inductive PollExit
  | completedExit
  | failureExit (status : String)
  | timeoutExit
deriving DecidableEq

/-- Membership of a status in the terminal-failure set
`{"failed", "cancelled", "expired"}` (bot.py line 199). -/
def terminalFailure (s : String) : Bool :=
  s == "failed" || s == "cancelled" || s == "expired"

/-- The polling loop of `run_assistant_blocking` (bot.py lines 194-203) at
iteration `n`: check `completed` first, then the terminal-failure set, then
the wall-clock bound `time.time() - start > 90`, else sleep 1 second and
poll again.  Elapsed seconds at iteration `n` is `n` (one 1.0-second sleep
per earlier iteration), so the loop can never pass iteration 91; the second
argument is the remaining iterations before that point, and the loop is
entered with `n = 0`, remaining `= 91`.  At remaining `= 0` we have
`n = 91 > 90`, so the non-terminal branch is the timeout signal. -/
def pollGo (statusAt : Nat → String) : Nat → Nat → PollExit
  | n, 0 =>
    if statusAt n = "completed" then .completedExit
    else if terminalFailure (statusAt n) then .failureExit (statusAt n)
    else .timeoutExit
  | n, r + 1 =>
    if statusAt n = "completed" then .completedExit
    else if terminalFailure (statusAt n) then .failureExit (statusAt n)
    else if n > 90 then .timeoutExit
    else pollGo statusAt (n + 1) r

/-- Result of one orchestrated run: the returned answer text, a raised
`RuntimeError` carrying the terminal status, or a raised `TimeoutError`. -/
inductive RunResult
  | answer (text : String)
  | runFailure (status : String)
  | timedOut
deriving DecidableEq

/-- The extraction loop over `messages.list(...).data` (bot.py lines
205-208): return the `text.value` of the first listed message (the API
lists most-recent-first, hence the latest) whose role is `assistant` and
whose non-empty content starts with a `text` part. -/
def extractAssistantText : List Msg → Option String
  | [] => none
  | m :: rest =>
    match m.content with
    | c :: _ =>
      if m.role = "assistant" ∧ c.ctype = "text" then some c.textValue
      else extractAssistantText rest
    | [] => extractAssistantText rest

/-- Model of `run_assistant_blocking` (bot.py lines 177-209): poll the run to an
exit, then on success return the latest assistant text, falling back to a
fixed string when none exists.  The message-create and run-create calls
before the loop are remote side effects that do not influence the returned
mapping, so they are not part of the value. -/
def run_assistant_blocking (statusAt : Nat → String) (msgs : List Msg) :
    RunResult :=
  match pollGo statusAt 0 91 with
  | .completedExit =>
    match extractAssistantText msgs with
    | some t => .answer t
    | none => .answer "I couldn\x27t produce a response this time."
  | .failureExit s => .runFailure s
  | .timeoutExit => .timedOut

/-- Fuel-driven form of the `while text:` loop of `_chunk_for_discord`
(bot.py lines 219-225); each iteration emits `text[:limit]` and continues
on `text[limit:]`.  For any positive `limit` a fuel of `text.length`
suffices, since every iteration consumes at least one character. -/
def chunkGo (limit : Nat) : Nat → String → List String
  | 0, _ => []
  | fuel + 1, text =>
    if text = "" then []
    else pyTake text limit :: chunkGo limit fuel (pyDrop text limit)

/-- Model of `_chunk_for_discord` (bot.py lines 219-225) with its default
`limit = 1900`. -/
def _chunk_for_discord (text : String) (limit : Nat := 1900) : List String :=
  chunkGo limit text.length text

/-- State of the thread registry: the `CHANNEL_THREAD_CACHE` dict (bot.py
line 38) as an insertion-ordered association list, together with the count
of remote `threads.create()` calls made so far. -/
structure RegState where
  cache : List (Nat × String)
  created : Nat
deriving DecidableEq

/-- Dict lookup `channel_id in CHANNEL_THREAD_CACHE` /
`CHANNEL_THREAD_CACHE[channel_id]`. -/
def lookupCache : List (Nat × String) → Nat → Option String
  | [], _ => none
  | (k, v) :: rest, ch => if k = ch then some v else lookupCache rest ch

/-- Model of `get_or_create_thread` (bot.py lines 170-175): on a cache hit return the
stored id unchanged; on a miss perform one remote creation (the id it
yields is `newThreadId` applied to the running creation count), store the
mapping, and return the new id. -/
def get_or_create_thread (newThreadId : Nat → String) (s : RegState)
    (channelId : Nat) : String × RegState :=
  match lookupCache s.cache channelId with
  | some tid => (tid, s)
  | none =>
    let tid := newThreadId s.created
    (tid, ⟨s.cache ++ [(channelId, tid)], s.created + 1⟩)

/-- Modelled from the spec: no reset command exists in `src/bot.py` (only
`CHANNEL_THREAD_CACHE` and `get_or_create_thread` are present there); the
spec (§4.4, §6) describes `reset(channelId)` as removing the channel
mapping when present and returning whether a removal occurred. -/
def reset (s : RegState) (channelId : Nat) : Bool × RegState :=
  match lookupCache s.cache channelId with
  | some _ => (true, ⟨s.cache.filter (fun p => p.1 != channelId), s.created⟩)
  | none => (false, s)

/-- Observable calls a command handler makes, in order. -/
inductive BotCall
  | deferThinking
  | channelTyping
  | followupSend (text : String)
  | channelSend (text : String)
  | registryGetOrCreate (channelId : Nat)
  | assistantRun (threadId : String) (question : String) (docs : List Doc)
deriving DecidableEq

/-- Whether a call belongs to the thread registry or the run orchestrator. -/
def isAssistantSide : BotCall → Bool
  | .registryGetOrCreate _ => true
  | .assistantRun _ _ _ => true
  | _ => false

/-- Model of the `/ask` slash-command handler (bot.py lines 234-248) as the ordered
trace of its calls plus the resulting registry state: defer, gather, send
the no-sources message when gathering is empty, otherwise get-or-create
the thread, run the assistant, and send the chunked answer; a failed or
timed-out run is caught by the `except` clause and reported. -/
def ask_effects (env : Env) (reg : RegState) (channelId : Nat)
    (question : String) : List BotCall × RegState :=
  let docs := gather_research env question
  if docs.isEmpty then
    ([.deferThinking, .followupSend
        "I couldn’t gather sources right now. Please try again in a minute."],
     reg)
  else
    let r := get_or_create_thread env.newThreadId reg channelId
    match run_assistant_blocking env.runStatusAt env.runMsgs with
    | .answer a =>
      ([.deferThinking, .registryGetOrCreate channelId,
        .assistantRun r.1 question docs]
        ++ (_chunk_for_discord a).map .followupSend, r.2)
    | _ =>
      ([.deferThinking, .registryGetOrCreate channelId,
        .assistantRun r.1 question docs,
        .followupSend
          "Something went wrong while researching or generating the answer."],
       r.2)

/-- Usage text sent when `$question` has no argument (bot.py lines 265-268). -/
def usageMessage : String :=
  "Please type your question after `$question`, e.g.\n`$question What are VMware’s latest moves vs OpenShift Virtualization?`"

/-- Model of the `on_message` prefix-command handler (bot.py lines 251-288) as the
ordered trace of its calls plus the resulting registry state: ignore bot
authors, answer `$hello`, and for `$question` strip the prefix, demand a
non-empty argument, gather research inside the typing context, short-
circuit on empty research, otherwise get-or-create the thread, run the
assistant and send the chunked answer; a failed or timed-out run is caught
by the `except` clause and reported. -/
def on_message_effects (env : Env) (reg : RegState) (authorBot : Bool)
    (channelId : Nat) (content : String) : List BotCall × RegState :=
  if authorBot then ([], reg)
  else if pyStartsWith content "$hello" then
    ([.channelSend "Hello! I am online and ready."], reg)
  else if pyStartsWith content "$question" then
    let q := pyTrim (pyDrop content 9)
    if q = "" then ([.channelSend usageMessage], reg)
    else
      let docs := gather_research env q
      if docs.isEmpty then
        ([.channelTyping, .channelSend
            "I couldn’t gather any sources right now. Try again in a few minutes."],
         reg)
      else
        let r := get_or_create_thread env.newThreadId reg channelId
        match run_assistant_blocking env.runStatusAt env.runMsgs with
        | .answer a =>
          ([.channelTyping, .registryGetOrCreate channelId,
            .assistantRun r.1 q docs]
            ++ (_chunk_for_discord a).map .channelSend, r.2)
        | _ =>
          ([.channelTyping, .registryGetOrCreate channelId,
            .assistantRun r.1 q docs,
            .channelSend
              "⚠️ Something went wrong while researching or generating the answer."],
           r.2)
  else ([], reg)

/-! General string facts used below. -/

theorem strLength (s : String) : s.length = s.data.length := rfl

theorem pyDropLength (s : String) (n : Nat) :
    (pyDrop s n).length = s.length - n := by
  rw [strLength, strLength, pyDrop, List.length_drop]

theorem pyTakeLength (s : String) (n : Nat) : (pyTake s n).length ≤ n := by
  rw [strLength, pyTake]
  exact List.length_take_le n s.data

theorem strEmptyIff (s : String) : s = "" ↔ s.data = [] := by
  constructor
  · intro h; rw [h]
  · intro h; cases s with
    | mk d => cases h; rfl

theorem pyTakeDrop (s : String) (n : Nat) : pyTake s n ++ pyDrop s n = s := by
  cases s with
  | mk d =>
    apply congrArg String.mk
    have h1 : (pyTake (String.mk d) n ++ pyDrop (String.mk d) n).data
        = d.take n ++ d.drop n := by
      rw [String.data_append, pyTake, pyDrop]
    exact h1.trans (List.take_append_drop n d)

theorem strJoinCons (a : String) (l : List String) :
    String.join (a :: l) = a ++ String.join l := by
  cases a with
  | mk d =>
    apply congrArg String.mk
    have h1 : (String.join (String.mk d :: l)).data
        = d ++ (l.map String.data).flatten := by
      rw [String.join_eq]; rfl
    have h2 : (String.mk d ++ String.join l).data
        = d ++ (l.map String.data).flatten := by
      rw [String.data_append, String.join_eq]
    exact h1.trans h2.symm

/-! Facts about the chunking loop. -/

theorem chunkGo_join (limit : Nat) (hl : 0 < limit) :
    ∀ (fuel : Nat) (text : String), text.length ≤ fuel →
      String.join (chunkGo limit fuel text) = text := by
  intro fuel
  induction fuel with
  | zero =>
    intro text h
    have hd : text.data = [] := List.eq_nil_of_length_eq_zero (Nat.le_zero.mp h)
    rw [(strEmptyIff text).mpr hd, chunkGo]
    rfl
  | succ fuel ih =>
    intro text h
    rw [chunkGo]
    by_cases he : text = ""
    · rw [if_pos he, he]; rfl
    · rw [if_neg he, strJoinCons, ih (pyDrop text limit) ?_, pyTakeDrop]
      rw [pyDropLength]
      omega

theorem chunkGo_mem_length (limit : Nat) :
    ∀ (fuel : Nat) (text : String) (c : String),
      c ∈ chunkGo limit fuel text → c.length ≤ limit := by
  intro fuel
  induction fuel with
  | zero => intro text c hc; cases hc
  | succ fuel ih =>
    intro text c hc
    rw [chunkGo] at hc
    by_cases he : text = ""
    · rw [if_pos he] at hc; cases hc
    · rw [if_neg he] at hc
      rcases List.mem_cons.mp hc with h | h
      · rw [h]; exact pyTakeLength text limit
      · exact ih (pyDrop text limit) c h

theorem chunkGo_length_1900 :
    ∀ (fuel : Nat) (text : String), text.length ≤ fuel →
      (chunkGo 1900 fuel text).length = (text.length + 1899) / 1900 := by
  intro fuel
  induction fuel with
  | zero =>
    intro text h
    have hd : text.data = [] := List.eq_nil_of_length_eq_zero (Nat.le_zero.mp h)
    have hz : text.length = 0 := Nat.le_zero.mp h
    rw [chunkGo, hz]
    norm_num
  | succ fuel ih =>
    intro text h
    rw [chunkGo]
    by_cases he : text = ""
    · rw [if_pos he, he]
      rfl
    · rw [if_neg he]
      have hpos : 0 < text.length := by
        rcases Nat.eq_zero_or_pos text.length with h0 | h0
        · exact absurd ((strEmptyIff text).mpr
            (List.eq_nil_of_length_eq_zero h0)) he
        · exact h0
      have hrec := ih (pyDrop text 1900) (by rw [pyDropLength]; omega)
      rw [List.length_cons, hrec, pyDropLength]
      omega

/-- C6: for every input string, the function `_chunk_for_discord` with its default limit
1900 returns chunks whose concatenation equals the original string, each of
length at most 1900; an input of length 5000 yields exactly 3 chunks. -/
theorem chunk_for_discord_spec (text : String) :
    String.join (_chunk_for_discord text) = text ∧
    (∀ c ∈ _chunk_for_discord text, c.length ≤ 1900) ∧
    (text.length = 5000 → (_chunk_for_discord text).length = 3) := by
  refine ⟨chunkGo_join 1900 (by norm_num) text.length text (Nat.le_refl _),
    fun c hc => chunkGo_mem_length 1900 text.length text c hc, ?_⟩
  intro h5
  show (chunkGo 1900 text.length text).length = 3
  rw [chunkGo_length_1900 text.length text (Nat.le_refl _), h5]

/-- Witness for C6 at a concrete 5000-character string. -/
theorem chunk_for_discord_spec_witness :
    (_chunk_for_discord (String.mk (List.replicate 5000 'a'))).length = 3 :=
  (chunk_for_discord_spec (String.mk (List.replicate 5000 'a'))).2.2
    (by rw [strLength]; exact List.length_replicate 5000 'a')

/-- C4: the function `infer_competitors` always returns a non-empty list; membership is
exactly the catalog keys occurring as substrings of the lower-cased
question, except that when no key matches the whole catalog key list is
returned in catalog order. -/
theorem infer_competitors_spec (question : String) :
    infer_competitors question ≠ [] ∧
    (∀ k, k ∈ infer_competitors question ↔
      k ∈ competitorKeys ∧
        (strIn k (pyLower question) = true ∨
          ∀ k2 ∈ competitorKeys, strIn k2 (pyLower question) = false)) ∧
    ((∀ k ∈ competitorKeys, strIn k (pyLower question) = false) →
      infer_competitors question = competitorKeys) := by
  by_cases h :
      (competitorKeys.filter (fun k => strIn k (pyLower question))).isEmpty
  · have hnil : competitorKeys.filter (fun k => strIn k (pyLower question))
        = [] := List.isEmpty_iff.mp h
    have hall : ∀ k ∈ competitorKeys, strIn k (pyLower question) = false := by
      intro k hk
      have hne := List.filter_eq_nil_iff.mp hnil k hk
      exact Bool.not_eq_true _ ▸ Bool.of_not_eq_true hne
    have hinf : infer_competitors question = competitorKeys := by
      rw [infer_competitors]
      simp only [h, if_true]
    refine ⟨by rw [hinf]; decide, ?_, fun _ => hinf⟩
    intro k
    rw [hinf]
    exact ⟨fun hk => ⟨hk, Or.inr hall⟩, fun hk => hk.1⟩
  · have hinf : infer_competitors question
        = competitorKeys.filter (fun k => strIn k (pyLower question)) := by
      rw [infer_competitors]
      simp only [h]
      rw [if_neg]
      simp [Bool.not_eq_true] at h
      simp [h]
    have hne : infer_competitors question ≠ [] := by
      rw [hinf]
      intro hc
      rw [hc] at h
      exact h rfl
    refine ⟨hne, ?_, ?_⟩
    · intro k
      rw [hinf, List.mem_filter]
      constructor
      · exact fun hk => ⟨hk.1, Or.inl hk.2⟩
      · rintro ⟨hk, hs | hall⟩
        · exact ⟨hk, hs⟩
        · exfalso
          apply h
          rw [List.filter_eq_nil_iff.mpr]
          · rfl
          · intro a ha
            rw [hall a ha]
            exact Bool.false_ne_true
    · intro hall
      exfalso
      apply h
      rw [List.filter_eq_nil_iff.mpr]
      · rfl
      · intro a ha
        rw [hall a ha]
        exact Bool.false_ne_true

/-- Witness for C4: a question containing the keyword vmware yields a
result containing the key vmware. -/
theorem infer_competitors_spec_witness :
    "vmware" ∈ infer_competitors "Is VMware better than OpenShift?" :=
  ((infer_competitors_spec "Is VMware better than OpenShift?").2.1
    "vmware").mpr ⟨by decide, Or.inl (by decide)⟩

/-! Facts about the thread-registry cache. -/

theorem lookupCache_append_self (c : List (Nat × String)) (ch : Nat)
    (v : String) (h : lookupCache c ch = none) :
    lookupCache (c ++ [(ch, v)]) ch = some v := by
  induction c with
  | nil => simp [lookupCache]
  | cons p rest ih =>
    rw [lookupCache] at h
    by_cases hk : p.1 = ch
    · rw [show p = (p.1, p.2) from rfl] at h
      simp [hk] at h
    · rw [List.cons_append, show p = (p.1, p.2) from rfl, lookupCache,
        if_neg hk]
      apply ih
      rw [show p = (p.1, p.2) from rfl, if_neg hk] at h
      exact h

theorem lookupCache_none_notMem (c : List (Nat × String)) (ch : Nat)
    (h : lookupCache c ch = none) : ch ∉ c.map Prod.fst := by
  induction c with
  | nil => simp
  | cons p rest ih =>
    rw [show p = (p.1, p.2) from rfl, lookupCache] at h
    by_cases hk : p.1 = ch
    · rw [if_pos hk] at h
      cases h
    · rw [if_neg hk] at h
      simp only [List.map_cons, List.mem_cons]
      rintro (h1 | h1)
      · exact hk h1.symm
      · exact ih h h1

/-- C7: the function `get_or_create_thread` is idempotent per channel: a cache hit
returns the stored id with no state change; a miss performs exactly one
remote creation, stores the mapping and returns the new id; two
consecutive calls agree and (from an absent channel) create exactly once;
keys stay duplicate-free, so the mapping keeps at most one entry per
channel. -/
theorem get_or_create_thread_spec (newTid : Nat → String) (s : RegState)
    (ch : Nat) :
    (∀ tid, lookupCache s.cache ch = some tid →
      get_or_create_thread newTid s ch = (tid, s)) ∧
    (lookupCache s.cache ch = none →
      (get_or_create_thread newTid s ch).1 = newTid s.created ∧
      (get_or_create_thread newTid s ch).2.created = s.created + 1 ∧
      (get_or_create_thread newTid s ch).2.cache
        = s.cache ++ [(ch, newTid s.created)]) ∧
    ((get_or_create_thread newTid (get_or_create_thread newTid s ch).2 ch).1
        = (get_or_create_thread newTid s ch).1 ∧
      (get_or_create_thread newTid (get_or_create_thread newTid s ch).2 ch).2
        = (get_or_create_thread newTid s ch).2) ∧
    (lookupCache s.cache ch = none →
      (get_or_create_thread newTid (get_or_create_thread newTid s ch).2
          ch).2.created = s.created + 1) ∧
    ((s.cache.map Prod.fst).Nodup →
      ((get_or_create_thread newTid s ch).2.cache.map Prod.fst).Nodup) := by
  have hsecond :
      (get_or_create_thread newTid (get_or_create_thread newTid s ch).2 ch).1
        = (get_or_create_thread newTid s ch).1 ∧
      (get_or_create_thread newTid (get_or_create_thread newTid s ch).2 ch).2
        = (get_or_create_thread newTid s ch).2 := by
    cases h : lookupCache s.cache ch with
    | some tid =>
      have h1 : get_or_create_thread newTid s ch = (tid, s) := by
        rw [get_or_create_thread, h]
      rw [h1]
      exact ⟨congrArg Prod.fst h1, congrArg Prod.snd h1⟩
    | none =>
      have h1 : get_or_create_thread newTid s ch
          = (newTid s.created,
             ⟨s.cache ++ [(ch, newTid s.created)], s.created + 1⟩) := by
        rw [get_or_create_thread, h]
      have h2 : lookupCache (get_or_create_thread newTid s ch).2.cache ch
          = some (newTid s.created) := by
        rw [h1]
        exact lookupCache_append_self s.cache ch (newTid s.created) h
      have h3 : get_or_create_thread newTid
          (get_or_create_thread newTid s ch).2 ch
          = ((newTid s.created), (get_or_create_thread newTid s ch).2) := by
        rw [get_or_create_thread, h2]
      rw [h3, h1]
      exact ⟨rfl, rfl⟩
  refine ⟨?_, ?_, hsecond, ?_, ?_⟩
  · intro tid htid
    rw [get_or_create_thread, htid]
  · intro hno
    rw [get_or_create_thread, hno]
    exact ⟨rfl, rfl, rfl⟩
  · intro hno
    rw [hsecond.2, get_or_create_thread, hno]
  · intro hn
    cases h : lookupCache s.cache ch with
    | some tid =>
      rw [get_or_create_thread, h]
      exact hn
    | none =>
      rw [get_or_create_thread, h]
      simp only [List.map_append, List.map_cons, List.map_nil]
      rw [List.nodup_append]
      refine ⟨hn, List.nodup_singleton ch, ?_⟩
      intro a ha hb
      rw [List.mem_singleton] at hb
      exact lookupCache_none_notMem s.cache ch h (hb ▸ ha)

/-- Witness for C7: from an empty cache, one call creates exactly one
remote thread and a second call performs no further creation. -/
theorem get_or_create_thread_spec_witness :
    (get_or_create_thread (fun n => "tid" ++ toString n)
      (get_or_create_thread (fun n => "tid" ++ toString n)
        ⟨[], 0⟩ 5).2 5).2.created = 0 + 1 :=
  (get_or_create_thread_spec (fun n => "tid" ++ toString n) ⟨[], 0⟩ 5).2.2.2.1
    rfl

theorem lookupCache_filter_self (c : List (Nat × String)) (ch : Nat) :
    lookupCache (c.filter (fun p => p.1 != ch)) ch = none := by
  induction c with
  | nil => rfl
  | cons p rest ih =>
    by_cases hk : p.1 = ch
    · rw [List.filter_cons]
      simp only [hk, bne_self_eq_false]
      exact ih
    · rw [List.filter_cons]
      have hb : (p.1 != ch) = true := bne_iff_ne.mpr hk
      simp only [hb, if_true]
      rw [show p = (p.1, p.2) from rfl, lookupCache, if_neg hk]
      exact ih

theorem lookupCache_filter_other (c : List (Nat × String)) (ch ch2 : Nat)
    (hne : ch2 ≠ ch) :
    lookupCache (c.filter (fun p => p.1 != ch)) ch2
      = lookupCache c ch2 := by
  induction c with
  | nil => rfl
  | cons p rest ih =>
    by_cases hk : p.1 = ch
    · rw [List.filter_cons]
      simp only [hk, bne_self_eq_false]
      have hne2 : ¬ p.1 = ch2 := fun hc => hne (by rw [← hc, hk])
      rw [show p = (p.1, p.2) from rfl, lookupCache, if_neg hne2]
      exact ih
    · rw [List.filter_cons]
      have hb : (p.1 != ch) = true := bne_iff_ne.mpr hk
      simp only [hb, if_true]
      rw [show p = (p.1, p.2) from rfl, lookupCache, lookupCache]
      by_cases hk2 : p.1 = ch2
      · rw [if_pos hk2, if_pos hk2]
      · rw [if_neg hk2, if_neg hk2]
        exact ih

/-- C8: the reset operation removes exactly the mapping of the given channel
when present, reports whether a removal occurred, and makes the next
`get_or_create_thread` for that channel perform a second remote creation
returning the id that creation yields. -/
theorem reset_spec (newTid : Nat → String) (s : RegState) (ch : Nat) :
    ((reset s ch).1 = true ↔ lookupCache s.cache ch ≠ none) ∧
    lookupCache (reset s ch).2.cache ch = none ∧
    (∀ ch2, ch2 ≠ ch →
      lookupCache (reset s ch).2.cache ch2 = lookupCache s.cache ch2) ∧
    (reset s ch).2.created = s.created ∧
    (get_or_create_thread newTid (reset s ch).2 ch).2.created
      = (reset s ch).2.created + 1 ∧
    (get_or_create_thread newTid (reset s ch).2 ch).1
      = newTid (reset s ch).2.created := by
  cases h : lookupCache s.cache ch with
  | some tid =>
    have h1 : reset s ch
        = (true, ⟨s.cache.filter (fun p => p.1 != ch), s.created⟩) := by
      rw [reset, h]
    rw [h1]
    have h2 : lookupCache (s.cache.filter (fun p => p.1 != ch)) ch = none :=
      lookupCache_filter_self s.cache ch
    refine ⟨by simp [h], h2, ?_, rfl, ?_, ?_⟩
    · intro ch2 hne
      exact lookupCache_filter_other s.cache ch ch2 hne
    · rw [get_or_create_thread, h2]
    · rw [get_or_create_thread, h2]
  | none =>
    have h1 : reset s ch = (false, s) := by
      rw [reset, h]
    rw [h1]
    refine ⟨by simp [h], h, fun ch2 _ => rfl, rfl, ?_, ?_⟩
    · rw [get_or_create_thread]
      show (match lookupCache s.cache ch with
        | some tid => (tid, s)
        | none => (newTid s.created,
            ⟨s.cache ++ [(ch, newTid s.created)], s.created + 1⟩) :
          String × RegState).2.created = s.created + 1
      rw [h]
    · rw [get_or_create_thread, h]

/-- Witness for C8: resetting a channel with a stored thread reports a
removal, and the next lookup for an untouched channel is unchanged. -/
theorem reset_spec_witness :
    (reset ⟨[(5, "t0")], 1⟩ 5).1 = true ∧
    lookupCache (reset ⟨[(5, "t0"), (7, "t1")], 2⟩ 5).2.cache 7
      = lookupCache (⟨[(5, "t0"), (7, "t1")], 2⟩ : RegState).cache 7 :=
  ⟨((reset_spec (fun _ => "t") ⟨[(5, "t0")], 1⟩ 5).1).mpr (by decide),
   (reset_spec (fun _ => "t") ⟨[(5, "t0"), (7, "t1")], 2⟩ 5).2.2.1 7
     (by decide)⟩

theorem flatten_of_all_nil {α : Type} (l : List (List α))
    (h : ∀ x ∈ l, x = []) : l.flatten = [] := by
  induction l with
  | nil => rfl
  | cons x rest ih =>
    rw [List.flatten_cons, h x (List.mem_cons_self x rest),
      ih (fun y hy => h y (List.mem_cons_of_mem x hy))]
    rfl

/-- C9: the function `bing_news_search` maps every failure mode to the empty result
list: an absent search key, a raised network/timeout error, and a
non-success HTTP status each contribute zero results; consequently when
every news query fails, `gather_research` still proceeds with exactly the
homepage documents. -/
theorem bing_news_search_soft_fail (key : String)
    (resp : Option (Nat × Option (List BingItem))) :
    (key = "" → bing_news_search key resp = []) ∧
    (resp = none → bing_news_search key resp = []) ∧
    (∀ st body, st ≠ 200 → resp = some (st, body) →
      bing_news_search key resp = []) ∧
    (∀ (env : Env) (question : String),
      (∀ q, bing_news_search env.bingKey (env.bingNet q) = []) →
      gather_research env question
        = fetchStage env
            (dedupByUrl (officialSiteDocs (infer_competitors question)))) := by
  refine ⟨?_, ?_, ?_, ?_⟩
  · intro hk
    simp [bing_news_search.eq_def, hk]
  · intro hr
    subst hr
    by_cases hk : key = "" <;> simp [bing_news_search.eq_def, hk]
  · intro st body hst hr
    subst hr
    by_cases hk : key = "" <;> simp [bing_news_search.eq_def, hk, hst]
  · intro env question hfail
    rw [gather_research]
    have hnews : ∀ (qs : List String),
        (qs.map (fun q => bing_news_search env.bingKey (env.bingNet q))).flatten
          = [] := by
      intro qs
      apply flatten_of_all_nil
      intro x hx
      rcases List.mem_map.mp hx with ⟨q, _, hq⟩
      rw [← hq]
      exact hfail q
    by_cases hq : question ≠ ""
    · simp only [if_pos hq, hnews, List.nil_append]
    · simp only [if_neg hq, hnews, List.nil_append]

/-- Witness for C9: with no configured key and a failing network, a news
query yields zero results. -/
theorem bing_news_search_soft_fail_witness :
    bing_news_search "" none = [] ∧ bing_news_search "k" (some (500, none)) = [] :=
  ⟨(bing_news_search_soft_fail "" none).1 rfl,
   (bing_news_search_soft_fail "k" (some (500, none))).2.2.1 500 none
     (by decide) rfl⟩

/-! Facts about the polling loop. -/

theorem pollGo_completed (statusAt : Nat → String) (n r : Nat)
    (h : statusAt n = "completed") :
    pollGo statusAt n r = .completedExit := by
  cases r with
  | zero => rw [pollGo, if_pos h]
  | succ r => rw [pollGo, if_pos h]

theorem pollGo_failure (statusAt : Nat → String) (n r : Nat)
    (h1 : statusAt n ≠ "completed")
    (h2 : terminalFailure (statusAt n) = true) :
    pollGo statusAt n r = .failureExit (statusAt n) := by
  cases r with
  | zero => rw [pollGo, if_neg h1, if_pos h2]
  | succ r => rw [pollGo, if_neg h1, if_pos h2]

theorem pollGo_in_progress (statusAt : Nat → String)
    (h : ∀ m, statusAt m = "in_progress") :
    ∀ (r n : Nat), pollGo statusAt n r = .timeoutExit := by
  intro r
  induction r with
  | zero =>
    intro n
    rw [pollGo, if_neg (by rw [h n]; decide),
      if_neg (by rw [h n]; decide)]
  | succ r ih =>
    intro n
    rw [pollGo, if_neg (by rw [h n]; decide),
      if_neg (by rw [h n]; decide)]
    by_cases hn : n > 90
    · rw [if_pos hn]
    · rw [if_neg hn]
      exact ih (n + 1)

/-- C1: the orchestrator maps the polled run state to its result: an
immediately completed run returns the latest assistant text verbatim; a
terminal-failure status raises a run failure carrying that status; a run
that never leaves in_progress raises the timeout signal (after the fixed
90-second bound), which is distinct from every run-failure signal; and a
completed run with no assistant-authored text message returns the fixed
fallback string. -/
theorem run_state_mapping (statusAt : Nat → String) (msgs : List Msg) :
    (∀ t, statusAt 0 = "completed" → extractAssistantText msgs = some t →
      run_assistant_blocking statusAt msgs = .answer t) ∧
    (∀ s, s ∈ (["failed", "cancelled", "expired"] : List String) →
      statusAt 0 = s →
      run_assistant_blocking statusAt msgs = .runFailure s) ∧
    ((∀ n, statusAt n = "in_progress") →
      run_assistant_blocking statusAt msgs = .timedOut) ∧
    (statusAt 0 = "completed" → extractAssistantText msgs = none →
      run_assistant_blocking statusAt msgs
        = .answer "I couldn\x27t produce a response this time.") ∧
    (∀ s, (RunResult.timedOut : RunResult) ≠ .runFailure s) := by
  refine ⟨?_, ?_, ?_, ?_, fun s h => by cases h⟩
  · intro t hc he
    rw [run_assistant_blocking, pollGo_completed statusAt 0 91 hc, he]
  · intro s hs h0
    simp only [List.mem_cons, List.not_mem_nil, or_false] at hs
    have hnc : statusAt 0 ≠ "completed" := by
      rw [h0]
      rcases hs with h | h | h <;> rw [h] <;> decide
    have ht : terminalFailure (statusAt 0) = true := by
      rw [h0]
      rcases hs with h | h | h <;> rw [h] <;> decide
    rw [run_assistant_blocking, pollGo_failure statusAt 0 91 hnc ht, h0]
  · intro hall
    rw [run_assistant_blocking, pollGo_in_progress statusAt hall 91 0]
  · intro hc he
    rw [run_assistant_blocking, pollGo_completed statusAt 0 91 hc, he]

/-- Witness for C1: a run that completes at once with one assistant text
message returns that text verbatim, and one that stays in_progress
forever times out. -/
theorem run_state_mapping_witness :
    run_assistant_blocking (fun _ => "completed")
        [⟨"assistant", [⟨"text", "the answer"⟩]⟩] = .answer "the answer" ∧
    run_assistant_blocking (fun _ => "in_progress") [] = .timedOut :=
  ⟨(run_state_mapping (fun _ => "completed")
      [⟨"assistant", [⟨"text", "the answer"⟩]⟩]).1 "the answer" rfl (by decide),
   (run_state_mapping (fun _ => "in_progress") []).2.2.1 (fun _ => rfl)⟩

/-! Facts about the dedup loop. -/

theorem dedupGo_sublist (l : List Doc) :
    ∀ seen, (dedupByUrlGo seen l).Sublist l := by
  induction l with
  | nil =>
    intro seen
    exact List.nil_sublist []
  | cons it rest ih =>
    intro seen
    rw [dedupByUrlGo]
    by_cases h : it.url ≠ "" ∧ it.url ∉ seen
    · rw [if_pos h]
      exact List.Sublist.cons₂ it (ih _)
    · rw [if_neg h]
      exact List.Sublist.cons it (ih seen)

theorem dedupGo_url_ne (l : List Doc) :
    ∀ seen d, d ∈ dedupByUrlGo seen l → d.url ≠ "" := by
  induction l with
  | nil =>
    intro seen d hd
    cases hd
  | cons it rest ih =>
    intro seen d hd
    rw [dedupByUrlGo] at hd
    by_cases h : it.url ≠ "" ∧ it.url ∉ seen
    · rw [if_pos h] at hd
      rcases List.mem_cons.mp hd with h1 | h1
      · rw [h1]
        exact h.1
      · exact ih _ d h1
    · rw [if_neg h] at hd
      exact ih seen d hd

theorem filterDocCons (u : String) (it : Doc) (l : List Doc) :
    (it :: l).filter (fun d => d.url == u)
      = if it.url = u then it :: l.filter (fun d => d.url == u)
        else l.filter (fun d => d.url == u) := by
  by_cases h : it.url = u
  · rw [if_pos h]
    exact List.filter_cons_of_pos (beq_iff_eq.mpr h)
  · rw [if_neg h]
    exact List.filter_cons_of_neg (by rw [beq_iff_eq]; exact h)

theorem dedupGo_filter (u : String) (hu : u ≠ "") :
    ∀ (l : List Doc) (seen : List String),
      (dedupByUrlGo seen l).filter (fun d => d.url == u)
        = if u ∈ seen then []
          else (l.filter (fun d => d.url == u)).take 1 := by
  intro l
  induction l with
  | nil =>
    intro seen
    by_cases h : u ∈ seen
    · rw [dedupByUrlGo, if_pos h]
      rfl
    · rw [dedupByUrlGo, if_neg h]
      rfl
  | cons it rest ih =>
    intro seen
    rw [dedupByUrlGo]
    by_cases hkeep : it.url ≠ "" ∧ it.url ∉ seen
    · rw [if_pos hkeep]
      by_cases hu2 : it.url = u
      · have hmem : u ∈ it.url :: seen := hu2 ▸ List.mem_cons_self it.url seen
        have hnotin : u ∉ seen := hu2 ▸ hkeep.2
        rw [filterDocCons, if_pos hu2, ih (it.url :: seen),
          if_pos hmem, if_neg hnotin, filterDocCons, if_pos hu2]
        rfl
      · have hseen : (u ∈ it.url :: seen) ↔ u ∈ seen := by
          rw [List.mem_cons]
          exact or_iff_right (fun hc => hu2 hc.symm)
        rw [filterDocCons, if_neg hu2, ih (it.url :: seen),
          filterDocCons, if_neg hu2]
        by_cases h : u ∈ seen
        · rw [if_pos (hseen.mpr h), if_pos h]
        · rw [if_neg (fun hc => h (hseen.mp hc)), if_neg h]
    · rw [if_neg hkeep, ih seen]
      by_cases h : u ∈ seen
      · rw [if_pos h, if_pos h]
      · have hu2 : ¬ it.url = u := by
          intro hc
          rcases not_and_or.mp hkeep with h1 | h1
          · exact hu (hc ▸ (not_not.mp h1))
          · exact h (hc ▸ (not_not.mp h1))
        rw [if_neg h, if_neg h, filterDocCons, if_neg hu2]

/-- C2 counterexample: two input entries share the same URL (the empty
string, as a news item missing its url field yields), yet zero entries
with that URL survive the dedup step — not exactly one. -/
theorem dedup_same_url_zero_survivors :
    ({ title := "a", url := "", source := "s1", text := "" } : Doc).url
      = ({ title := "b", url := "", source := "s2", text := "" } : Doc).url
    ∧ (dedupByUrl
        [{ title := "a", url := "", source := "s1", text := "" },
         { title := "b", url := "", source := "s2", text := "" }]).countP
        (fun d => d.url
          == ({ title := "a", url := "", source := "s1", text := "" } :
                Doc).url) = 0 := by
  decide

/-- C2 (amended): within one gathering call the dedup step keeps every URL
at most once; for any two input entries with the same non-empty URL exactly
one survives — the first encountered — while entries with an empty URL are
dropped; surviving entries keep their original relative order. -/
theorem dedup_by_url_amended (l : List Doc) :
    (∀ u : String, (dedupByUrl l).countP (fun d => d.url == u) ≤ 1) ∧
    (∀ u : String, u ≠ "" →
      (dedupByUrl l).filter (fun d => d.url == u)
        = (l.filter (fun d => d.url == u)).take 1) ∧
    (∀ d ∈ dedupByUrl l, d.url ≠ "") ∧
    (dedupByUrl l).Sublist l := by
  have hfil : ∀ u : String, u ≠ "" →
      (dedupByUrl l).filter (fun d => d.url == u)
        = (l.filter (fun d => d.url == u)).take 1 := by
    intro u hu
    rw [dedupByUrl, dedupGo_filter u hu l []]
    rw [if_neg (List.not_mem_nil u)]
  refine ⟨?_, hfil, fun d hd => dedupGo_url_ne l [] d hd, dedupGo_sublist l []⟩
  intro u
  rw [List.countP_eq_length_filter]
  by_cases hu : u = ""
  · have hnil : (dedupByUrl l).filter (fun d => d.url == u) = [] := by
      rw [List.filter_eq_nil_iff]
      intro d hd
      rw [beq_iff_eq, hu]
      exact dedupGo_url_ne l [] d hd
    rw [hnil]
    decide
  · rw [hfil u hu]
    calc ((l.filter (fun d => d.url == u)).take 1).length
        ≤ 1 := List.length_take_le 1 _

/-- Witness for C2 (amended): with two entries sharing one non-empty URL,
exactly the first survives. -/
theorem dedup_by_url_amended_witness :
    (dedupByUrl [⟨"a", "https://x", "s1", ""⟩,
        ⟨"b", "https://x", "s2", ""⟩]).filter
        (fun d => d.url == "https://x")
      = ([(⟨"a", "https://x", "s1", ""⟩ : Doc),
          ⟨"b", "https://x", "s2", ""⟩].filter
          (fun d => d.url == "https://x")).take 1 :=
  (dedup_by_url_amended
    [⟨"a", "https://x", "s1", ""⟩, ⟨"b", "https://x", "s2", ""⟩]).2.1
    "https://x" (by decide)

theorem fetch_url_text_length (pageNet : String → Option (Nat × String))
    (strip : String → String) (url : String) :
    (fetch_url_text pageNet strip url).length ≤ 20000 := by
  cases hp : pageNet url with
  | none => simp [fetch_url_text.eq_def, hp]
  | some pr =>
    by_cases hst : pr.1 ≠ 200
    · simp [fetch_url_text.eq_def, hp, hst]
    · simp only [fetch_url_text.eq_def, hp, hst, if_false, ite_false]
      exact le_trans (le_of_eq rfl) (pyTakeLength _ 20000)

theorem fetchStage_spec (env : Env) (dd : List Doc) :
    (fetchStage env dd).length ≤ 15 ∧
    (∀ d ∈ fetchStage env dd,
      d.text ≠ "" ∧ d.text.length ≤ 20000 ∧
      d.text = fetch_url_text env.pageNet env.stripHtml d.url) := by
  constructor
  · exact Nat.le_trans (List.length_filterMap_le _ _) (List.length_take_le 15 dd)
  · intro d hd
    rw [fetchStage] at hd
    obtain ⟨a, ha, hfa⟩ := List.mem_filterMap.mp hd
    by_cases hb : fetch_url_text env.pageNet env.stripHtml a.url = ""
    · exfalso
      simp only [hb, ne_eq, not_true_eq_false, if_false, ite_false,
        reduceCtorEq] at hfa
    · simp only [ne_eq, hb, not_false_eq_true, if_true, ite_true,
        Option.some.injEq] at hfa
      have hurl : d.url = a.url := by rw [← hfa]
      have htext : d.text = fetch_url_text env.pageNet env.stripHtml a.url := by
        rw [← hfa]
      refine ⟨?_, ?_, ?_⟩
      · rw [htext]
        exact hb
      · rw [htext]
        exact fetch_url_text_length _ _ _
      · rw [htext, hurl]

/-- C3: the function `gather_research` returns at most 15 documents; every returned
document has a non-empty text of at most 20000 characters, equal to the
fetched body of its URL; and any URL whose fetch fails (empty body, from a
raised error or a non-success status) appears on no returned document. -/
theorem gather_research_bounded (env : Env) (question : String) :
    (gather_research env question).length ≤ 15 ∧
    (∀ d ∈ gather_research env question,
      d.text ≠ "" ∧ d.text.length ≤ 20000 ∧
      d.text = fetch_url_text env.pageNet env.stripHtml d.url) ∧
    (∀ u, fetch_url_text env.pageNet env.stripHtml u = "" →
      ∀ d ∈ gather_research env question, d.url ≠ u) := by
  refine ⟨(fetchStage_spec env _).1, (fetchStage_spec env _).2, ?_⟩
  intro u hu d hd hdu
  have h2 := (fetchStage_spec env _).2 d hd
  apply h2.1
  rw [h2.2.2, hdu, hu]

/-- A concrete environment: no news key, every page fetch succeeds with a
small body, the remote run completes at once with no messages. -/
def envPagesOk : Env :=
  { bingKey := "", bingNet := fun _ => none,
    pageNet := fun _ => some (200, "hello"), stripHtml := fun s => s,
    newThreadId := fun _ => "t", runStatusAt := fun _ => "completed",
    runMsgs := [] }

/-- Witness for C3 at a concrete environment and question: the first
homepage document is returned with its non-empty fetched text. -/
theorem gather_research_bounded_witness :
    (gather_research envPagesOk "").length ≤ 15 ∧
    ({ title := "vmware site: vmware.com", url := "https://vmware.com",
       source := "vmware.com", text := "hello" } : Doc).text ≠ "" :=
  ⟨(gather_research_bounded envPagesOk "").1,
   ((gather_research_bounded envPagesOk "").2.1 _ (by decide)).1⟩

/-- A concrete environment in which every search and every page fetch
fails, so gathering yields no usable sources. -/
def envAllFail : Env :=
  { bingKey := "", bingNet := fun _ => none, pageNet := fun _ => none,
    stripHtml := fun s => s, newThreadId := fun _ => "t",
    runStatusAt := fun _ => "completed", runMsgs := [] }

/-- C5: whenever `gather_research` returns no documents, both command
handlers send only the could-not-gather-sources message and return with
the registry untouched; neither the thread registry nor the assistant run
orchestrator is ever invoked. -/
theorem empty_sources_short_circuit (env : Env) (reg : RegState)
    (channelId : Nat) (question content : String) :
    (gather_research env question = [] →
      ask_effects env reg channelId question
        = ([.deferThinking, .followupSend
            "I couldn’t gather sources right now. Please try again in a minute."],
           reg)
      ∧ ∀ e ∈ (ask_effects env reg channelId question).1,
          isAssistantSide e = false) ∧
    (pyStartsWith content "$hello" = false →
      pyStartsWith content "$question" = true →
      pyTrim (pyDrop content 9) = question →
      question ≠ "" →
      gather_research env question = [] →
      on_message_effects env reg false channelId content
        = ([.channelTyping, .channelSend
            "I couldn’t gather any sources right now. Try again in a few minutes."],
           reg)
      ∧ ∀ e ∈ (on_message_effects env reg false channelId content).1,
          isAssistantSide e = false) := by
  constructor
  · intro hg
    have he : ask_effects env reg channelId question
        = ([.deferThinking, .followupSend
            "I couldn’t gather sources right now. Please try again in a minute."],
           reg) := by
      simp [ask_effects, hg]
    refine ⟨he, ?_⟩
    intro e hee
    rw [he] at hee
    simp only [List.mem_cons, List.not_mem_nil, or_false] at hee
    rcases hee with h | h <;> rw [h] <;> rfl
  · intro hh hq htrim hne hg
    have he : on_message_effects env reg false channelId content
        = ([.channelTyping, .channelSend
            "I couldn’t gather any sources right now. Try again in a few minutes."],
           reg) := by
      simp [on_message_effects, hh, hq, htrim, hne, hg]
    refine ⟨he, ?_⟩
    intro e hee
    rw [he] at hee
    simp only [List.mem_cons, List.not_mem_nil, or_false] at hee
    rcases hee with h | h <;> rw [h] <;> rfl

/-- Witness for C5: with every search and fetch failing, both handlers
reply with the could-not-gather-sources message and nothing else. -/
theorem empty_sources_short_circuit_witness :
    ask_effects envAllFail ⟨[], 0⟩ 1 "hi"
      = ([.deferThinking, .followupSend
          "I couldn’t gather sources right now. Please try again in a minute."],
         ⟨[], 0⟩)
    ∧ on_message_effects envAllFail ⟨[], 0⟩ false 1 "$question hi"
      = ([.channelTyping, .channelSend
          "I couldn’t gather any sources right now. Try again in a few minutes."],
         ⟨[], 0⟩) :=
  ⟨((empty_sources_short_circuit envAllFail ⟨[], 0⟩ 1 "hi"
      "$question hi").1 (by decide)).1,
   ((empty_sources_short_circuit envAllFail ⟨[], 0⟩ 1 "hi"
      "$question hi").2 (by decide) (by decide) (by decide) (by decide)
      (by decide)).1⟩

/-- A concrete environment where fetches succeed and the only assistant
message of the completed run carries the empty text. -/
def envAnswerEmpty : Env :=
  { bingKey := "", bingNet := fun _ => none,
    pageNet := fun _ => some (200, "x"), stripHtml := fun s => s,
    newThreadId := fun _ => "t", runStatusAt := fun _ => "completed",
    runMsgs := [⟨"assistant", [⟨"text", ""⟩]⟩] }

/-- C10: chunking the empty string yields no chunks, so when the
orchestrated run produces the empty answer the send loop of the
prefix-command handler runs zero times and no reply message is sent to the channel. -/
theorem chunk_empty_no_reply (env : Env) (reg : RegState) (channelId : Nat)
    (content : String) :
    _chunk_for_discord "" = [] ∧
    (pyStartsWith content "$hello" = false →
      pyStartsWith content "$question" = true →
      pyTrim (pyDrop content 9) ≠ "" →
      gather_research env (pyTrim (pyDrop content 9)) ≠ [] →
      run_assistant_blocking env.runStatusAt env.runMsgs = .answer "" →
      ∀ s, BotCall.channelSend s
        ∉ (on_message_effects env reg false channelId content).1) := by
  refine ⟨rfl, ?_⟩
  intro hh hq hne hg hrun s
  have hdocs : (gather_research env (pyTrim (pyDrop content 9))).isEmpty
      = false := by
    cases hcase : gather_research env (pyTrim (pyDrop content 9)) with
    | nil => exact absurd hcase hg
    | cons a l => rfl
  simp [on_message_effects, hh, hq, hne, hdocs, hrun, _chunk_for_discord,
    chunkGo]

/-- Witness for C10: a run answering with the empty string produces a
handler trace containing no channel send at all. -/
theorem chunk_empty_no_reply_witness :
    BotCall.channelSend "x"
      ∉ (on_message_effects envAnswerEmpty ⟨[], 0⟩ false 1
          "$question hi").1 :=
  (chunk_empty_no_reply envAnswerEmpty ⟨[], 0⟩ 1 "$question hi").2
    (by decide) (by decide) (by decide) (by decide) (by decide) "x"
